import Mathlib

/-
Shallow embedding of the ply BPF code generator (src/compile.c) and proofs of
the spec claims about it.

Modelling conventions:
- Machine integers are modelled as Int with explicit two's-complement wrapping
  where a C struct field narrows a value (the int32 immediate and int16 offset
  fields of struct bpf_insn).
- The append-only instruction buffer (prog->ip cursor) is modelled by the list
  of instructions a routine emits, in order.  Every error path in compile.c
  returns before the erroring routine emits anything, and the probe assembler
  discards the partially filled buffer on error, so a fallible routine is
  modelled as Except Err (List Insn).
- The diagnostic side channel (dump flag and dump_insn) is modelled separately
  in the emission layer (EmitState / emit / emitAll below).
-/

namespace Ply

/-- Two's-complement wrap of an integer to a signed 32-bit value, as performed
by assignment to the int32_t imm field of struct bpf_insn. -/
def toInt32 (x : Int) : Int :=
  (x + 2147483648) % 4294967296 - 2147483648

/-- Two's-complement wrap of an integer to a signed 16-bit value, as performed
by assignment to the int16_t off field of struct bpf_insn. -/
def toInt16 (x : Int) : Int :=
  (x + 32768) % 65536 - 32768

/-- Two's-complement wrap to a signed 64-bit value (reading a byte buffer as an
int64_t, as emit_xfer_literal does with its _from argument). -/
def toInt64 (x : Int) : Int :=
  (x + 9223372036854775808) % 18446744073709551616 - 9223372036854775808

/-- Arithmetic shift right by 32 of a signed 64-bit value: the C expression
integer >> 32 on an int64_t operand (floor division by 2^32). -/
def shr32 (x : Int) : Int :=
  Int.fdiv x 4294967296

/-- The 64-bit ALU opcodes of compile.c (BPF_MOV, BPF_ADD, ...). -/
inductive AluOp where
  | mov | add | sub | mul | div | bor | band | lsh | rsh | neg | mod | bxor
deriving DecidableEq, Repr

/-- Jump opcodes used by compile.c (BPF_JA, BPF_JEQ, BPF_JNE, BPF_JGT, BPF_JGE). -/
inductive JmpOp where
  | ja | jeq | jne | jgt | jge
deriving DecidableEq, Repr

/-- The helper-function ids recognised by bpf_func_name in compile.c. -/
inductive BpfFunc where
  | map_lookup_elem
  | map_update_elem
  | map_delete_elem
  | probe_read
  | ktime_get_ns
  | trace_printk
  | get_current_pid_tgid
  | get_current_uid_gid
  | get_current_comm
deriving DecidableEq, Repr

/-- One encoded eBPF instruction, at the granularity of the constructor macros
used by compile.c (MOV_IMM, ALU_IMM, STXDW, STW_IMM, LDXDW, MOV, ALU, JMP_IMM,
CALL, EXIT, and the map-fd load emitted by emit_ld_mapfd).  The imm field is
a wrapped signed 32-bit value and the off field a wrapped signed 16-bit value. -/
inductive Insn where
  | movImm (dst : Nat) (imm : Int)
  | movReg (dst src : Nat)
  | aluImm (op : AluOp) (dst : Nat) (imm : Int)
  | aluReg (op : AluOp) (dst src : Nat)
  | stxdw (dst : Nat) (off : Int) (src : Nat)
  | stwImm (dst : Nat) (off : Int) (imm : Int)
  | ldxdw (dst : Nat) (off : Int) (src : Nat)
  | jmpImm (op : JmpOp) (dst : Nat) (imm : Int) (off : Int)
  | call (f : BpfFunc)
  | exit
  | ldMapFd (dst : Nat) (fd : Int)
deriving DecidableEq, Repr

/-- The off (displacement) field of an instruction; 0 for encodings without one. -/
def Insn.off : Insn → Int
  | .stxdw _ o _ => o
  | .stwImm _ o _ => o
  | .ldxdw _ o _ => o
  | .jmpImm _ _ _ o => o
  | _ => 0

/-- Modelled from the spec: the MOV_IMM constructor macro of compile.h (not
under src/); a register move of a signed 32-bit immediate, per the instruction
record of spec section 6. -/
def MOV_IMM (dst : Nat) (imm : Int) : Insn := .movImm dst (toInt32 imm)

/-- Modelled from the spec: the MOV register-to-register constructor macro of
compile.h (not under src/). -/
def MOV (dst src : Nat) : Insn := .movReg dst src

/-- Modelled from the spec: the ALU_IMM constructor macro of compile.h (not
under src/); a 64-bit ALU operation with a signed 32-bit immediate operand. -/
def ALU_IMM (op : AluOp) (dst : Nat) (imm : Int) : Insn := .aluImm op dst (toInt32 imm)

/-- Modelled from the spec: the ALU register-operand constructor macro of
compile.h (not under src/). -/
def ALU (op : AluOp) (dst src : Nat) : Insn := .aluReg op dst src

/-- Modelled from the spec: the STXDW constructor macro of compile.h (not under
src/); a double-word store of a register at a signed 16-bit displacement. -/
def STXDW (dst : Nat) (off : Int) (src : Nat) : Insn := .stxdw dst (toInt16 off) src

/-- Modelled from the spec: the STW_IMM constructor macro of compile.h (not
under src/); a 32-bit immediate store at a signed 16-bit displacement. -/
def STW_IMM (dst : Nat) (off : Int) (imm : Int) : Insn :=
  .stwImm dst (toInt16 off) (toInt32 imm)

/-- Modelled from the spec: the LDXDW constructor macro of compile.h (not under
src/); a double-word load from a signed 16-bit displacement. -/
def LDXDW (dst : Nat) (off : Int) (src : Nat) : Insn := .ldxdw dst (toInt16 off) src

/-- Modelled from the spec: the JMP_IMM constructor macro of compile.h (not
under src/); a jump with immediate comparison operand and signed 16-bit
instruction displacement. -/
def JMP_IMM (op : JmpOp) (dst : Nat) (imm : Int) (off : Int) : Insn :=
  .jmpImm op dst (toInt32 imm) (toInt16 off)

/-- Modelled from the spec: the CALL constructor macro of compile.h (not under
src/); a helper invocation by id. -/
def CALL (f : BpfFunc) : Insn := .call f

/-- Modelled from the spec: the EXIT constructor macro of compile.h (not under
src/). -/
def EXIT : Insn := .exit

/-- Resolved data location of a node: dyn.loc in the source (LOC_NOWHERE,
LOC_REG, LOC_STACK). -/
inductive Loc where
  | nowhere | reg | stack
deriving DecidableEq, Repr

/-- AST node kinds: the type_t tags dispatched on by compile.c. -/
inductive NType where
  | tInt | tStr | tRec | tMap | tNot | tBinop | tReturn
  | tAssign | tCall | tProbe | tScript | tNone
deriving DecidableEq, Repr

/-- An AST node as consumed by compile.c.  Fields follow the node_t members the
code generator reads: the kind tag, the resolved-value descriptor dyn
(loc, reg, addr, size), the integer literal payload, the blob literal payload
(modelled as the buffer of consecutive 4-byte words, little-endian, as
emit_xfer_literal reads it through an int32_t pointer), the assignment operator
assign.op, the map file descriptor returned by node_map_get_fd, the key-record
frame offset map.rec->dyn.addr, and the ordered child list the walker descends
into (for an assignment: [lval, expr]).  The parent back-pointer is not a field;
the walker passes the parent's kind and operator down instead. -/
inductive Node where
  | mk (ty : NType) (loc : Loc) (reg : Nat) (addr : Int) (size : Nat)
       (integer : Int) (string : Nat → Int) (aop : AluOp)
       (mapfd : Int) (recAddr : Int) (kids : List Node)

/-- Kind tag of a node. -/
@[simp] def Node.ty : Node → NType
  | .mk t _ _ _ _ _ _ _ _ _ _ => t

/-- Resolved location (dyn.loc). -/
@[simp] def Node.loc : Node → Loc
  | .mk _ l _ _ _ _ _ _ _ _ _ => l

/-- Resolved register (dyn.reg). -/
@[simp] def Node.reg : Node → Nat
  | .mk _ _ r _ _ _ _ _ _ _ _ => r

/-- Resolved frame offset (dyn.addr). -/
@[simp] def Node.addr : Node → Int
  | .mk _ _ _ a _ _ _ _ _ _ _ => a

/-- Resolved byte size (dyn.size). -/
@[simp] def Node.size : Node → Nat
  | .mk _ _ _ _ s _ _ _ _ _ _ => s

/-- Integer literal payload. -/
@[simp] def Node.integer : Node → Int
  | .mk _ _ _ _ _ i _ _ _ _ _ => i

/-- Blob literal payload, as consecutive 4-byte words. -/
@[simp] def Node.string : Node → (Nat → Int)
  | .mk _ _ _ _ _ _ w _ _ _ _ => w

/-- Assignment operator (assign.op). -/
@[simp] def Node.aop : Node → AluOp
  | .mk _ _ _ _ _ _ _ o _ _ _ => o

/-- Map file descriptor (node_map_get_fd). -/
@[simp] def Node.mapfd : Node → Int
  | .mk _ _ _ _ _ _ _ _ f _ _ => f

/-- Key-record frame offset (map.rec->dyn.addr). -/
@[simp] def Node.recAddr : Node → Int
  | .mk _ _ _ _ _ _ _ _ _ r _ => r

/-- Ordered children, as visited by node_walk. -/
@[simp] def Node.kids : Node → List Node
  | .mk _ _ _ _ _ _ _ _ _ _ k => k

/-- An all-zero placeholder node. -/
def Node.empty : Node :=
  .mk .tNone .nowhere 0 0 0 0 (fun _ => 0) .mov 0 0 []

instance : Inhabited Node := ⟨Node.empty⟩

/-- Left child of an assignment (assign.lval). -/
def Node.lval (n : Node) : Node := n.kids.headD Node.empty

/-- Right child of an assignment (assign.expr). -/
def Node.expr (n : Node) : Node := (n.kids.drop 1).headD Node.empty

/-- Error results of compile.c, distinguished by the diagnostic each error
path prints before returning its errno. -/
inductive Err where
  | unknownDst       -- destination of node is unknown (-EINVAL)
  | unknownSrc       -- source of node is unknown (-EINVAL)
  | stackToStack     -- stack to stack transfer not implemented (-ENOSYS)
  | badPredLoc       -- unknown predicate location (-EINVAL)
  | unsupportedNode  -- unable to compile probe/script/none node (-ENOSYS)
deriving DecidableEq, Repr

/-- The errno value each error path returns. -/
def Err.errno : Err → Int
  | .unknownDst => -22
  | .unknownSrc => -22
  | .stackToStack => -38
  | .badPredLoc => -22
  | .unsupportedNode => -38

/-- The deltas of a provider's compile callback: the pluggable per-provider
compiler invoked for call nodes (pvdr, external to the core). -/
def Pvdr := Node → Except Err (List Insn)

/-- The little-endian 4-byte words of an int64_t value, as emit_xfer calls
emit_xfer_literal on the address of from->integer with size 8.  Indices past
the 8-byte buffer are unreachable for that call (size is exactly 8). -/
def i64Words (v : Int) : Nat → Int :=
  fun k => if k = 0 then toInt32 v else if k = 1 then toInt32 (shr32 v) else 0

/-- The first 8 bytes of a word buffer read back as an int64_t, as
emit_xfer_literal does via its int64_t pointer cast of _from. -/
def wordsInt64 (w : Nat → Int) : Int :=
  toInt64 (w 0 % 4294967296 + 4294967296 * (w 1 % 4294967296))

/-- The store loop of emit_stack_zero (compile.c lines 185-186): one STXDW of
register 0 per 8-byte stride, at frame offsets addr + i while i < size. -/
def zeroStores (addr : Int) (i size : Nat) : List Insn :=
  if _h : i < size then
    STXDW 10 (addr + (i : Int)) 0 :: zeroStores addr (i + 8) size
  else []
termination_by size - i
decreasing_by omega

/-- emit_stack_zero, compile.c lines 180-189: load immediate zero into scratch
register 0, then double-word stores covering the node's size. -/
def emit_stack_zero (n : Node) : List Insn :=
  MOV_IMM 0 0 :: zeroStores n.addr 0 n.size

/-- The stack store loop of emit_xfer_literal (compile.c lines 213-215): one
32-bit immediate store per 4-byte stride while size is nonzero, consuming
consecutive words of the source buffer.  The Nat subtraction saturates where
the C size_t subtraction would wrap for sizes not divisible by 4; all claims
about this loop assume 4 divides size. -/
def stwStores (addr : Int) (wds : Nat → Int) (idx size : Nat) : List Insn :=
  if _h : size = 0 then []
  else STW_IMM 10 addr (wds idx) :: stwStores (addr + 4) wds (idx + 1) (size - 4)
termination_by size
decreasing_by omega

/-- emit_xfer_literal, compile.c lines 191-220.  The C routine receives a raw
buffer pointer; here the int64_t view of the buffer and the int32_t word view
are passed explicitly. -/
def emit_xfer_literal (dst : Node) (integer : Int) (wds : Nat → Int)
    (size : Nat) : Except Err (List Insn) :=
  match dst.loc with
  | .nowhere => .error .unknownDst
  | .reg =>
      if integer > 0xffffffff then
        .ok [MOV_IMM dst.reg (shr32 integer),
             ALU_IMM .lsh dst.reg 32,
             ALU_IMM .bor dst.reg (shr32 integer)]
      else
        .ok [MOV_IMM dst.reg integer]
  | .stack => .ok (stwStores dst.addr wds 0 size)

/-- emit_xfer_reg, compile.c lines 222-242. -/
def emit_xfer_reg (dst : Node) (frm : Nat) : Except Err (List Insn) :=
  match dst.loc with
  | .nowhere => .error .unknownDst
  | .reg => if dst.reg = frm then .ok [] else .ok [MOV dst.reg frm]
  | .stack => .ok [STXDW 10 dst.addr frm]

/-- emit_xfer_stack, compile.c lines 244-261. -/
def emit_xfer_stack (dst : Node) (frm : Int) : Except Err (List Insn) :=
  match dst.loc with
  | .nowhere => .error .unknownDst
  | .reg => .ok [LDXDW dst.reg frm 10]
  | .stack => .error .stackToStack

/-- emit_xfer, compile.c lines 263-289: literal sources are forwarded to
emit_xfer_literal (an integer with the size of its int64_t payload, a blob
with its declared size); other sources dispatch on their resolved location. -/
def emit_xfer (dst frm : Node) : Except Err (List Insn) :=
  match frm.ty with
  | .tInt => emit_xfer_literal dst frm.integer (i64Words frm.integer) 8
  | .tStr => emit_xfer_literal dst (wordsInt64 frm.string) frm.string frm.size
  | _ =>
    match frm.loc with
    | .nowhere => .error .unknownSrc
    | .reg => emit_xfer_reg dst frm.reg
    | .stack => emit_xfer_stack dst frm.addr

/-- Modelled from the spec: emit_ld_mapfd (pvdr code, not under src/), which
loads the map handle (file descriptor) into a register; per spec section 4.4
the map handle is placed in argument register 1 before the lookup or update
helper is invoked.  Modelled as a single map-fd load instruction. -/
def emit_ld_mapfd (reg : Nat) (fd : Int) : List Insn :=
  [Insn.ldMapFd reg fd]

/-- emit_map_load, compile.c lines 291-317.  The parent back-pointer reads
n->parent->type and n->parent->assign.op are supplied as pTy and pOp by the
walker. -/
def emit_map_load (pTy : NType) (pOp : AluOp) (n : Node) : List Insn :=
  if pTy = .tAssign ∧ pOp = .mov then []
  else
    emit_stack_zero n ++
    emit_ld_mapfd 1 n.mapfd ++
    [MOV 2 10,
     ALU_IMM .add 2 n.recAddr,
     CALL .map_lookup_elem,
     JMP_IMM .jeq 0 0 5,
     MOV 1 10,
     ALU_IMM .add 1 n.addr,
     MOV_IMM 2 (n.size : Int),
     MOV 3 0,
     CALL .probe_read]

/-- emit_assign, compile.c lines 319-354. -/
def emit_assign (n : Node) : Except Err (List Insn) := do
  let map := n.lval
  let expr := n.expr
  let head ←
    if n.aop = AluOp.mov then
      if expr.ty = .tInt then
        emit_xfer map expr
      else
        pure []
    else do
      let c1 ← emit_xfer n map
      let c2 := if expr.ty = .tInt then [ALU_IMM n.aop n.reg expr.integer]
                else [ALU n.aop n.reg expr.reg]
      let c3 ← emit_xfer map n
      pure (c1 ++ c2 ++ c3)
  pure (head ++
    emit_ld_mapfd 1 map.mapfd ++
    [MOV 2 10,
     ALU_IMM .add 2 map.recAddr,
     MOV 3 10,
     ALU_IMM .add 3 map.addr,
     MOV_IMM 4 0,
     CALL .map_update_elem])

/-- compile_pre, compile.c lines 356-367: the switch has only an empty default
case, so the pre-order hook emits nothing and always succeeds. -/
def compile_pre (_n : Node) : Except Err (List Insn) := .ok []

/-- compile_post, compile.c lines 369-424: the post-order dispatch on node
kind.  The emit_xfer return value on the blob-literal case is ignored by the
source (line 386); every emit_xfer error path errors before emitting, so the
failed call contributes no instructions.  pTy and pOp carry the parent
back-pointer data read by emit_map_load, and P is the provider compile
callback invoked for call nodes. -/
def compile_post (P : Pvdr) (pTy : NType) (pOp : AluOp) (n : Node) :
    Except Err (List Insn) :=
  match n.ty with
  | .tInt => .ok []
  | .tStr =>
      match emit_xfer n n with
      | .ok l => .ok l
      | .error _ => .ok []
  | .tRec => .ok []
  | .tMap => .ok (emit_map_load pTy pOp n)
  | .tNot => .ok []
  | .tBinop => .ok []
  | .tReturn => .ok []
  | .tAssign => emit_assign n
  | .tCall => P n
  | .tProbe => .error .unsupportedNode
  | .tScript => .error .unsupportedNode
  | .tNone => .error .unsupportedNode

mutual

/-- Modelled from the spec: node_walk (lang/ast.c, not under src/), the single
post-order traversal of spec section 4.7 — the pre hook, then each child in
order, then the post hook on the node itself.  The parent kind and assignment
operator of the node being visited are threaded down in place of the C parent
back-pointer. -/
def compile_walk (P : Pvdr) (pTy : NType) (pOp : AluOp) :
    Node → Except Err (List Insn)
  | Node.mk ty loc rg addr sz intg wds aop fd ra kids => do
      let pr ← compile_pre (Node.mk ty loc rg addr sz intg wds aop fd ra kids)
      let ks ← walkList P ty aop kids
      let po ← compile_post P pTy pOp (Node.mk ty loc rg addr sz intg wds aop fd ra kids)
      pure (pr ++ ks ++ po)

/-- Walk of a list of sibling nodes, in order, propagating the first error. -/
def walkList (P : Pvdr) (pTy : NType) (pOp : AluOp) :
    List Node → Except Err (List Insn)
  | [] => .ok []
  | n :: rest => do
      let a ← compile_walk P pTy pOp n
      let b ← walkList P pTy pOp rest
      pure (a ++ b)

end

/-- The location-dispatched branch block of compile_pred (compile.c lines
444-461): the skip branch emitted before the exit tail. -/
def predGate (pred : Node) : Except Err (List Insn) :=
  match pred.loc with
  | .reg => .ok [JMP_IMM .jne pred.reg 0 2]
  | .stack => .ok [LDXDW 0 pred.addr 10, JMP_IMM .jne 0 0 2]
  | .nowhere =>
      if pred.ty ≠ .tInt then .error .badPredLoc
      else if pred.integer ≠ 0 then .ok [JMP_IMM .ja 0 0 2]
      else .ok []

/-- compile_pred, compile.c lines 431-467: compile the predicate expression via
the walker, then branch on its resolved location, then the exit tail.  The
predicate node's parent is the probe node. -/
def compile_pred (P : Pvdr) : Option Node → Except Err (List Insn)
  | none => .ok []
  | some pred => do
      let w ← compile_walk P .tProbe .mov pred
      let gate ← predGate pred
      pure (w ++ gate ++ [MOV_IMM 0 0, EXIT])

/-- A probe as consumed by compile_probe: the optional predicate and the
ordered statement list (probe.pred and probe.stmts). -/
structure Probe where
  pred : Option Node
  stmts : List Node

/-- compile_probe, compile.c lines 469-509: context-pointer move, predicate
gate, statement walks, and the implicit exit tail unless the last statement is
a return.  The C loop dereferences the last statement after walking, so an
empty statement list is undefined behaviour in the source; the embedding is
only meaningful (and only reasoned about) for nonempty statement lists. -/
def compile_probe (P : Pvdr) (probe : Probe) : Except Err (List Insn) := do
  let p ← compile_pred P probe.pred
  let b ← walkList P .tProbe .mov probe.stmts
  let tail :=
    match probe.stmts.getLast? with
    | some last => if last.ty = .tReturn then [] else [MOV_IMM 0 0, EXIT]
    | none => [MOV_IMM 0 0, EXIT]
  pure (MOV 9 1 :: (p ++ b ++ tail))

/-- State of the emission layer: the instruction buffer written through
prog->ip, the static instruction counter of dump_insn, and the diagnostic
lines written to the side-channel stream. -/
structure EmitState where
  insns : List Insn
  ip : Nat
  diag : List String

/-- emit, compile.c lines 172-178: when the process-wide dump flag is set,
render the instruction to the diagnostic stream (dump_insn, whose rendering is
any function of its static counter and the instruction), then append the
instruction to the buffer unconditionally. -/
def emit (dump : Bool) (render : Nat → Insn → String) (s : EmitState)
    (insn : Insn) : EmitState :=
  { insns := s.insns ++ [insn]
    ip := if dump then s.ip + 1 else s.ip
    diag := if dump then s.diag ++ [render s.ip insn] else s.diag }

/-- Emission of a whole instruction sequence, one emit call per instruction. -/
def emitAll (dump : Bool) (render : Nat → Insn → String) (s : EmitState)
    (l : List Insn) : EmitState :=
  l.foldl (emit dump render) s

/-! Helper lemmas about the wrapping functions and the store loops. -/

lemma toInt32_eq_self {x : Int} (h1 : -2147483648 ≤ x) (h2 : x < 2147483648) :
    toInt32 x = x := by
  unfold toInt32; omega

lemma toInt16_eq_self {x : Int} (h1 : -32768 ≤ x) (h2 : x < 32768) :
    toInt16 x = x := by
  unfold toInt16; omega

@[simp] lemma toInt32_zero : toInt32 0 = 0 := by decide

@[simp] lemma toInt32_thirtytwo : toInt32 32 = 32 := by decide

@[simp] lemma toInt16_two : toInt16 2 = 2 := by decide

@[simp] lemma toInt16_five : toInt16 5 = 5 := by decide

lemma toInt32_emod (x : Int) : toInt32 x % 4294967296 = x % 4294967296 := by
  unfold toInt32; omega

/-- Closed form of the emit_stack_zero store loop: starting at index i with
size i + 8 * m, the loop emits exactly m double-word stores at successive
8-byte strides. -/
lemma zeroStores_closed (m : Nat) : ∀ (addr : Int) (i : Nat),
    zeroStores addr i (i + 8 * m) =
      (List.range m).map
        (fun (k : Nat) => Insn.stxdw 10 (toInt16 (addr + (i : Int) + 8 * (k : Int))) 0) := by
  induction m with
  | zero =>
      intro addr i
      unfold zeroStores
      simp
  | succ m ih =>
      intro addr i
      unfold zeroStores
      rw [dif_pos (by omega)]
      have hsz : i + 8 * (m + 1) = (i + 8) + 8 * m := by ring
      rw [hsz, ih addr (i + 8), List.range_succ_eq_map, List.map_cons, List.map_map]
      congr 1
      · simp [STXDW]
      · refine List.map_congr_left (fun k _ => ?_)
        simp only [Function.comp_apply]
        have ha : addr + ((i + 8 : Nat) : Int) + 8 * (k : Int) =
            addr + (i : Int) + 8 * ((Nat.succ k : Nat) : Int) := by
          push_cast; ring
        rw [ha]

/-- Closed form of the emit_xfer_literal stack store loop: with size 4 * m the
loop emits exactly m 32-bit immediate stores at successive 4-byte strides,
consuming consecutive words of the source buffer. -/
lemma stwStores_closed (m : Nat) : ∀ (addr : Int) (wds : Nat → Int) (idx : Nat),
    stwStores addr wds idx (4 * m) =
      (List.range m).map
        (fun (k : Nat) => Insn.stwImm 10 (toInt16 (addr + 4 * (k : Int)))
          (toInt32 (wds (idx + k)))) := by
  induction m with
  | zero =>
      intro addr wds idx
      unfold stwStores
      simp
  | succ m ih =>
      intro addr wds idx
      unfold stwStores
      rw [dif_neg (by omega)]
      have hsz : 4 * (m + 1) - 4 = 4 * m := by omega
      rw [hsz, ih (addr + 4) wds (idx + 1), List.range_succ_eq_map, List.map_cons,
        List.map_map]
      congr 1
      · simp [STW_IMM]
      · refine List.map_congr_left (fun k _ => ?_)
        simp only [Function.comp_apply]
        have ha : addr + 4 + 4 * (k : Int) =
            addr + 4 * ((Nat.succ k : Nat) : Int) := by
          push_cast; ring
        have hb : idx + 1 + k = idx + Nat.succ k := by omega
        rw [ha, hb]

/-- Offsets, lengths and head of a 4-byte-stride immediate-store list. -/
lemma stwList_facts (addr : Int) (w : Nat → Int) (c : Nat) :
    (((List.range c).map
        (fun (k : Nat) => Insn.stwImm 10 (addr + 4 * (k : Int)) (toInt32 (w k)))).map
      Insn.off).Pairwise (· < ·)
    ∧ (0 < c →
        (((List.range c).map
            (fun (k : Nat) => Insn.stwImm 10 (addr + 4 * (k : Int)) (toInt32 (w k)))).map
          Insn.off).head? = some addr) := by
  constructor
  · rw [List.map_map, List.pairwise_map]
    refine (List.pairwise_lt_range c).imp ?_
    intro a b hab
    simp only [Function.comp_apply, Insn.off]
    omega
  · intro hc
    obtain ⟨c2, rfl⟩ : ∃ c2, c = c2 + 1 := ⟨c - 1, by omega⟩
    rw [List.range_succ_eq_map]
    simp [Insn.off]

/-- C7: emit_stack_zero on a node whose declared size is a multiple of 8
(and whose stack area lies within the int16 displacement range) emits exactly
1 + size / 8 instructions: a zero-load of scratch register 0 followed by
size / 8 double-word stores of that register at strictly increasing frame
offsets starting at the node's base stack offset. -/
theorem C7_emit_stack_zero (n : Node) (h8 : (8 : Nat) ∣ n.size)
    (hlo : -32768 ≤ n.addr) (hhi : n.addr + (n.size : Int) ≤ 32768) :
    emit_stack_zero n =
      Insn.movImm 0 0 ::
        (List.range (n.size / 8)).map
          (fun (k : Nat) => Insn.stxdw 10 (n.addr + 8 * (k : Int)) 0)
    ∧ (emit_stack_zero n).length = 1 + n.size / 8
    ∧ ((emit_stack_zero n).tail.map Insn.off).Pairwise (· < ·)
    ∧ (0 < n.size →
        ((emit_stack_zero n).tail.map Insn.off).head? = some n.addr) := by
  obtain ⟨m, hm⟩ := h8
  have hdiv : n.size / 8 = m := by omega
  have hmain : emit_stack_zero n =
      Insn.movImm 0 0 ::
        (List.range (n.size / 8)).map
          (fun (k : Nat) => Insn.stxdw 10 (n.addr + 8 * (k : Int)) 0) := by
    rw [emit_stack_zero, hdiv]
    have h0 : n.size = 0 + 8 * m := by omega
    rw [h0, zeroStores_closed m n.addr 0]
    have htail : (List.range m).map
          (fun (k : Nat) =>
            Insn.stxdw 10 (toInt16 (n.addr + ((0 : Nat) : Int) + 8 * (k : Int))) 0) =
        (List.range m).map
          (fun (k : Nat) => Insn.stxdw 10 (n.addr + 8 * (k : Int)) 0) := by
      refine List.map_congr_left (fun k hk => ?_)
      have hk2 : k < m := List.mem_range.mp hk
      have ha : n.addr + ((0 : Nat) : Int) + 8 * (k : Int) = n.addr + 8 * (k : Int) := by
        push_cast; ring
      rw [ha, toInt16_eq_self (by omega) (by omega)]
    rw [htail, show MOV_IMM 0 0 = Insn.movImm 0 0 by simp [MOV_IMM]]
  refine ⟨hmain, ?_, ?_, ?_⟩
  · rw [hmain]
    simp only [List.length_cons, List.length_map, List.length_range]
    omega
  · rw [hmain]
    simp only [List.tail_cons, List.map_map, List.pairwise_map]
    refine (List.pairwise_lt_range _).imp ?_
    intro a b hab
    simp only [Function.comp_apply, Insn.off]
    omega
  · intro hpos
    rw [hmain]
    have h1 : n.size / 8 = (m - 1) + 1 := by omega
    rw [List.tail_cons, h1, List.range_succ_eq_map]
    simp [Insn.off]

/-- Witness node for C7: a stack-resident 16-byte record at frame offset -16. -/
def c7node : Node := .mk .tRec .stack 0 (-16) 16 0 (fun _ => 0) .mov 0 0 []

/-- Witness for C7 at a concrete 16-byte node. -/
theorem C7_emit_stack_zero_witness :
    emit_stack_zero c7node =
      Insn.movImm 0 0 ::
        (List.range (c7node.size / 8)).map
          (fun (k : Nat) => Insn.stxdw 10 (c7node.addr + 8 * (k : Int)) 0)
    ∧ (emit_stack_zero c7node).length = 1 + c7node.size / 8
    ∧ ((emit_stack_zero c7node).tail.map Insn.off).Pairwise (· < ·)
    ∧ (0 < c7node.size →
        ((emit_stack_zero c7node).tail.map Insn.off).head? = some c7node.addr) :=
  C7_emit_stack_zero c7node (by decide) (by decide) (by decide)

/-- The stack branch of emit_xfer_literal in closed form: one 32-bit immediate
store per 4-byte stride, holding the consecutive words of the source buffer. -/
lemma emit_xfer_literal_stack (dst : Node) (integer : Int) (wds : Nat → Int)
    (size : Nat) (hs : dst.loc = .stack) (h4 : (4 : Nat) ∣ size)
    (hlo : -32768 ≤ dst.addr) (hhi : dst.addr + (size : Int) ≤ 32768) :
    emit_xfer_literal dst integer wds size =
      .ok ((List.range (size / 4)).map
        (fun (k : Nat) =>
          Insn.stwImm 10 (dst.addr + 4 * (k : Int)) (toInt32 (wds k)))) := by
  obtain ⟨ty, loc, rg, addr, sz, intg, w0, aop, fd, ra, kids⟩ := dst
  simp only [Node.loc] at hs
  subst hs
  simp only [Node.addr] at hlo hhi ⊢
  obtain ⟨m, hm⟩ := h4
  have hdiv : size / 4 = m := by omega
  rw [hdiv]
  have h0 : size = 4 * m := by omega
  subst h0
  rw [show emit_xfer_literal
        (Node.mk ty .stack rg addr sz intg w0 aop fd ra kids) integer wds (4 * m) =
      .ok (stwStores addr wds 0 (4 * m)) from rfl]
  rw [stwStores_closed m addr wds 0]
  congr 1
  refine List.map_congr_left (fun k hk => ?_)
  have hk2 : k < m := List.mem_range.mp hk
  rw [toInt16_eq_self (by omega) (by omega)]
  simp

/-- The byte count emit_xfer passes to emit_xfer_literal for a literal source:
sizeof(from->integer) = 8 for an integer literal, from->dyn.size for a blob. -/
def literalSize (frm : Node) : Nat := if frm.ty = .tInt then 8 else frm.size

/-- The word buffer emit_xfer passes to emit_xfer_literal for a literal
source: the little-endian words of the int64 payload for an integer literal,
the blob words for a blob. -/
def literalWords (frm : Node) : Nat → Int :=
  if frm.ty = .tInt then i64Words frm.integer else frm.string

/-- C8: a literal source (integer of transfer size 8, or blob of its declared
size) transferred to a stack destination whose transfer size is a multiple of
4 (the stack area lying within the int16 displacement range) emits exactly
size / 4 32-bit immediate stores, at strictly increasing frame offsets
starting at the destination's base offset, whose immediates are the literal's
consecutive 4-byte words. -/
theorem C8_xfer_literal_stack (dst frm : Node) (hs : dst.loc = .stack)
    (hlit : frm.ty = .tInt ∨ frm.ty = .tStr)
    (h4 : (4 : Nat) ∣ literalSize frm)
    (hlo : -32768 ≤ dst.addr)
    (hhi : dst.addr + (literalSize frm : Int) ≤ 32768) :
    emit_xfer dst frm =
      .ok ((List.range (literalSize frm / 4)).map
        (fun (k : Nat) =>
          Insn.stwImm 10 (dst.addr + 4 * (k : Int)) (toInt32 (literalWords frm k))))
    ∧ ((List.range (literalSize frm / 4)).map
        (fun (k : Nat) =>
          Insn.stwImm 10 (dst.addr + 4 * (k : Int))
            (toInt32 (literalWords frm k)))).length = literalSize frm / 4
    ∧ (((List.range (literalSize frm / 4)).map
        (fun (k : Nat) =>
          Insn.stwImm 10 (dst.addr + 4 * (k : Int))
            (toInt32 (literalWords frm k)))).map Insn.off).Pairwise (· < ·)
    ∧ (0 < literalSize frm →
        (((List.range (literalSize frm / 4)).map
          (fun (k : Nat) =>
            Insn.stwImm 10 (dst.addr + 4 * (k : Int))
              (toInt32 (literalWords frm k)))).map Insn.off).head? = some dst.addr) := by
  refine ⟨?_, by simp, (stwList_facts dst.addr (literalWords frm) _).1,
    fun h => (stwList_facts dst.addr (literalWords frm) _).2 (by omega)⟩
  obtain ⟨ty, loc, rg, addr, sz, intg, w0, aop, fd, ra, kids⟩ := frm
  rcases hlit with h | h <;> simp only [Node.ty] at h <;> subst h
  · simp only [literalSize, literalWords, Node.ty, if_pos rfl] at h4 hhi ⊢
    exact emit_xfer_literal_stack dst intg (i64Words (Node.integer
      (Node.mk .tInt loc rg addr sz intg w0 aop fd ra kids))) 8 hs h4 hlo hhi
  · simp only [literalSize, literalWords, Node.ty] at h4 hhi ⊢
    exact emit_xfer_literal_stack dst _ _ _ hs (by simpa using h4) hlo (by simpa using hhi)

/-- Register-resident destination node in register 5, for concrete transfers. -/
def c1dst : Node := .mk .tNone .reg 5 0 0 0 (fun _ => 0) .mov 0 0 []

/-- The integer literal 0x100000002: high 32-bit word 1, low 32-bit word 2. -/
def c1lit : Node := .mk .tInt .nowhere 0 0 8 4294967298 (fun _ => 0) .mov 0 0 []

/-- C1 (evaluation at the failing input): transferring the integer literal
0x100000002 to the register destination r5 emits the three-instruction
sequence load-high, shift-left-32, bitwise-or — but the or immediate is 1,
the literal's high word (integer >> 32) a second time, not the low word 2,
so the register ends up holding 0x100000001 rather than the literal. -/
theorem C1_or_uses_high_word :
    emit_xfer c1dst c1lit =
      .ok [Insn.movImm 5 1, Insn.aluImm .lsh 5 32, Insn.aluImm .bor 5 1]
    ∧ Insn.aluImm .bor 5 1 ≠ Insn.aluImm .bor 5 2 :=
  ⟨rfl, by decide⟩

/-- C10: an integer literal with negative signed 64-bit value transferred to a
register destination emits exactly one immediate load, whose wrapped 32-bit
immediate has exactly the low-order 32 bits of the value (the signed
comparison against 0xffffffff is false for every negative value). -/
theorem C10_negative_literal_reg (dst frm : Node) (hreg : dst.loc = .reg)
    (ht : frm.ty = .tInt) (hneg : frm.integer < 0) :
    emit_xfer dst frm = .ok [Insn.movImm dst.reg (toInt32 frm.integer)]
    ∧ toInt32 frm.integer % 4294967296 = frm.integer % 4294967296 := by
  constructor
  · obtain ⟨fty, floc, frg, faddr, fsz, fintg, fw, faop, ffd, fra, fkids⟩ := frm
    simp only [Node.ty] at ht
    subst ht
    simp only [Node.integer] at hneg ⊢
    obtain ⟨ty, loc, rg, addr, sz, intg, w0, aop, fd, ra, kids⟩ := dst
    simp only [Node.loc] at hreg
    subst hreg
    simp only [Node.reg]
    rw [show emit_xfer (Node.mk ty .reg rg addr sz intg w0 aop fd ra kids)
          (Node.mk .tInt floc frg faddr fsz fintg fw faop ffd fra fkids) =
        emit_xfer_literal (Node.mk ty .reg rg addr sz intg w0 aop fd ra kids)
          fintg (i64Words fintg) 8 from rfl]
    simp only [emit_xfer_literal, Node.loc, Node.reg]
    rw [if_neg (by omega)]
    simp [MOV_IMM]
  · exact toInt32_emod _

/-- Witness destination for C10: a register-resident node in register 3. -/
def c10dst : Node := .mk .tNone .reg 3 0 0 0 (fun _ => 0) .mov 0 0 []

/-- Witness literal for C10: the negative integer literal -5. -/
def c10lit : Node := .mk .tInt .nowhere 0 0 8 (-5) (fun _ => 0) .mov 0 0 []

/-- Witness for C10 at the concrete literal -5. -/
theorem C10_negative_literal_reg_witness :
    emit_xfer c10dst c10lit = .ok [Insn.movImm c10dst.reg (toInt32 c10lit.integer)]
    ∧ toInt32 c10lit.integer % 4294967296 = c10lit.integer % 4294967296 :=
  C10_negative_literal_reg c10dst c10lit rfl rfl (by decide)

/-- C6 (amended): with an unresolved destination, emit_xfer always fails with
errno -EINVAL and emits nothing; the diagnostic is the unknown-destination
error for literal, register-resident and stack-resident sources, but for a
non-literal source that is itself unresolved the source check runs first and
reports the unknown-source error instead. -/
theorem C6_unknown_destination (dst frm : Node) (hd : dst.loc = .nowhere) :
    (frm.ty = .tInt ∨ frm.ty = .tStr ∨ frm.loc ≠ .nowhere →
      emit_xfer dst frm = .error .unknownDst)
    ∧ (frm.ty ≠ .tInt → frm.ty ≠ .tStr → frm.loc = .nowhere →
      emit_xfer dst frm = .error .unknownSrc)
    ∧ (∃ e, emit_xfer dst frm = .error e ∧ Err.errno e = -22) := by
  obtain ⟨fty, floc, frg, faddr, fsz, fintg, fw, faop, ffd, fra, fkids⟩ := frm
  obtain ⟨ty, loc, rg, addr, sz, intg, w0, aop, fd, ra, kids⟩ := dst
  simp only [Node.loc] at hd
  subst hd
  refine ⟨?_, ?_, ?_⟩
  · intro h
    cases fty <;> cases floc <;> (try rfl) <;>
      (rcases h with h | h | h <;> simp_all)
  · intro h1 h2 h3
    cases fty <;> cases floc <;> simp_all <;> rfl
  · cases fty <;> cases floc <;>
      first
        | exact ⟨.unknownDst, rfl, rfl⟩
        | exact ⟨.unknownSrc, rfl, rfl⟩

/-- A map-typed node with unresolved location, used as both source and
destination of a transfer. -/
def c6node : Node := .mk .tMap .nowhere 0 0 0 0 (fun _ => 0) .mov 0 0 []

/-- C6 (counterexample): with destination and non-literal source both
unresolved, emit_xfer reports the unknown-source error, not the
unknown-destination error the claim requires for every source kind. -/
theorem C6_counterexample :
    emit_xfer c6node c6node = .error .unknownSrc
    ∧ emit_xfer c6node c6node ≠ .error .unknownDst := by
  refine ⟨rfl, fun h => ?_⟩
  rw [show emit_xfer c6node c6node = .error .unknownSrc from rfl] at h
  injection h with h2
  exact absurd h2 (by decide)

/-- Witness source for the amended C6: an unresolved integer literal. -/
def c6src : Node := .mk .tInt .nowhere 0 0 8 7 (fun _ => 0) .mov 0 0 []

/-- Witness for the amended C6 at a concrete unresolved destination. -/
theorem C6_unknown_destination_witness :
    (c6src.ty = .tInt ∨ c6src.ty = .tStr ∨ c6src.loc ≠ .nowhere →
      emit_xfer c6node c6src = .error .unknownDst)
    ∧ (c6src.ty ≠ .tInt → c6src.ty ≠ .tStr → c6src.loc = .nowhere →
      emit_xfer c6node c6src = .error .unknownSrc)
    ∧ (∃ e, emit_xfer c6node c6src = .error e ∧ Err.errno e = -22) :=
  C6_unknown_destination c6node c6src rfl

/-! Monadic reduction lemmas for the Except error monad of the embedding. -/

@[simp] lemma ok_bind {α β : Type} (a : α) (f : α → Except Err β) :
    (Except.ok a : Except Err α) >>= f = f a := rfl

@[simp] lemma error_bind {α β : Type} (e : Err) (f : α → Except Err β) :
    (Except.error e : Except Err α) >>= f = Except.error e := rfl

@[simp] lemma pure_eq_ok {α : Type} (a : α) :
    (pure a : Except Err α) = Except.ok a := rfl

/-- Provider callback that emits nothing, for concrete evaluations. -/
def pvdrNone : Pvdr := fun _ => .ok []

/-- A logical-not node. -/
def c4not : Node := .mk .tNot .nowhere 0 0 0 0 (fun _ => 0) .mov 0 0 []

/-- A binary-op node. -/
def c4binop : Node := .mk .tBinop .nowhere 0 0 0 0 (fun _ => 0) .mov 0 0 []

/-- A return node. -/
def c4ret : Node := .mk .tReturn .nowhere 0 0 0 0 (fun _ => 0) .mov 0 0 []

/-- C4 (counterexample): the post-order dispatcher returns success with zero
instructions on logical-not, binary-op and return nodes — not the
NotImplemented error the claim requires — and the walker likewise succeeds,
so the probe compilation is not aborted. -/
theorem C4_counterexample :
    compile_post pvdrNone .tProbe .mov c4not = .ok []
    ∧ compile_post pvdrNone .tProbe .mov c4binop = .ok []
    ∧ compile_post pvdrNone .tProbe .mov c4ret = .ok []
    ∧ compile_walk pvdrNone .tProbe .mov c4not = .ok [] :=
  ⟨rfl, rfl, rfl, rfl⟩

/-- C4 (amended): dispatching a logical-not, binary-op or return node in the
post-order dispatcher is an unimplemented stub that emits no instructions and
returns success. -/
theorem C4_stub_kinds_succeed (P : Pvdr) (pTy : NType) (pOp : AluOp) (n : Node)
    (h : n.ty = .tNot ∨ n.ty = .tBinop ∨ n.ty = .tReturn) :
    compile_post P pTy pOp n = .ok [] := by
  obtain ⟨ty, loc, rg, addr, sz, intg, w0, aop, fd, ra, kids⟩ := n
  simp only [Node.ty] at h
  rcases h with h | h | h <;> subst h <;> rfl

/-- Witness for the amended C4 at a concrete logical-not node. -/
theorem C4_stub_kinds_succeed_witness :
    compile_post pvdrNone .tInt .mov c4not = .ok [] :=
  C4_stub_kinds_succeed pvdrNone .tInt .mov c4not (Or.inl rfl)

/-- compile_pred on a present predicate, when the expression walk and the gate
both succeed: walk code, then gate, then the exit tail. -/
lemma compile_pred_eq_ok (P : Pvdr) (pred : Node) (w g : List Insn)
    (hw : compile_walk P .tProbe .mov pred = .ok w)
    (hg : predGate pred = .ok g) :
    compile_pred P (some pred) = .ok (w ++ g ++ [MOV_IMM 0 0, EXIT]) := by
  simp [compile_pred, hw, hg]

/-- compile_pred propagates a gate error after a successful expression walk. -/
lemma compile_pred_gate_error (P : Pvdr) (pred : Node) (w : List Insn) (e : Err)
    (hw : compile_walk P .tProbe .mov pred = .ok w)
    (hg : predGate pred = .error e) :
    compile_pred P (some pred) = .error e := by
  simp [compile_pred, hw, hg]

/-- C3: compile_pred with an absent predicate emits nothing; with an
unresolved constant integer predicate of value 0 only the two-instruction
exit tail; with an unresolved non-zero constant exactly one unconditional
jump of offset +2 then the tail; with a register-resident predicate (whose
expression walk emits nothing) exactly one jump-if-not-equal-zero branch of
offset +2 on that register then the tail; with a stack-resident predicate a
double-word load of the predicate into scratch register 0, the same branch,
and the tail; and with an unresolved non-constant predicate the fatal
invalid-predicate-location error. -/
theorem C3_compile_pred (P : Pvdr) :
    (compile_pred P none = .ok [])
    ∧ (∀ pred : Node, pred.ty = .tInt → pred.kids = [] → pred.loc = .nowhere →
        pred.integer = 0 →
        compile_pred P (some pred) = .ok [Insn.movImm 0 0, Insn.exit])
    ∧ (∀ pred : Node, pred.ty = .tInt → pred.kids = [] → pred.loc = .nowhere →
        pred.integer ≠ 0 →
        compile_pred P (some pred) =
          .ok [Insn.jmpImm .ja 0 0 2, Insn.movImm 0 0, Insn.exit])
    ∧ (∀ pred : Node, compile_walk P .tProbe .mov pred = .ok [] →
        pred.loc = .reg →
        compile_pred P (some pred) =
          .ok [Insn.jmpImm .jne pred.reg 0 2, Insn.movImm 0 0, Insn.exit])
    ∧ (∀ pred : Node, compile_walk P .tProbe .mov pred = .ok [] →
        pred.loc = .stack → -32768 ≤ pred.addr → pred.addr < 32768 →
        compile_pred P (some pred) =
          .ok [Insn.ldxdw 0 pred.addr 10, Insn.jmpImm .jne 0 0 2,
               Insn.movImm 0 0, Insn.exit])
    ∧ (∀ pred : Node, ∀ w : List Insn,
        compile_walk P .tProbe .mov pred = .ok w → pred.loc = .nowhere →
        pred.ty ≠ .tInt →
        compile_pred P (some pred) = .error .badPredLoc) := by
  refine ⟨rfl, ?_, ?_, ?_, ?_, ?_⟩
  · intro pred hty hkids hloc hz
    obtain ⟨ty, loc, rg, addr, sz, intg, w0, aop, fd, ra, kids⟩ := pred
    simp only [Node.ty, Node.kids, Node.loc, Node.integer] at hty hkids hloc hz
    subst hty; subst hkids; subst hloc; subst hz
    rfl
  · intro pred hty hkids hloc hnz
    obtain ⟨ty, loc, rg, addr, sz, intg, w0, aop, fd, ra, kids⟩ := pred
    simp only [Node.ty, Node.kids, Node.loc, Node.integer] at hty hkids hloc hnz
    subst hty; subst hkids; subst hloc
    have hw : compile_walk P .tProbe .mov
        (Node.mk .tInt .nowhere rg addr sz intg w0 aop fd ra []) = .ok [] := rfl
    have hg : predGate (Node.mk .tInt .nowhere rg addr sz intg w0 aop fd ra []) =
        .ok [JMP_IMM .ja 0 0 2] := by
      simp [predGate, hnz]
    simpa [JMP_IMM, MOV_IMM, EXIT] using compile_pred_eq_ok P _ [] _ hw hg
  · intro pred hw hloc
    obtain ⟨ty, loc, rg, addr, sz, intg, w0, aop, fd, ra, kids⟩ := pred
    simp only [Node.loc] at hloc
    subst hloc
    simp only [Node.reg]
    have hg : predGate (Node.mk ty .reg rg addr sz intg w0 aop fd ra kids) =
        .ok [JMP_IMM .jne rg 0 2] := rfl
    simpa [JMP_IMM, MOV_IMM, EXIT] using compile_pred_eq_ok P _ [] _ hw hg
  · intro pred hw hloc h1 h2
    obtain ⟨ty, loc, rg, addr, sz, intg, w0, aop, fd, ra, kids⟩ := pred
    simp only [Node.loc] at hloc
    subst hloc
    simp only [Node.addr] at h1 h2 ⊢
    have hg : predGate (Node.mk ty .stack rg addr sz intg w0 aop fd ra kids) =
        .ok [LDXDW 0 addr 10, JMP_IMM .jne 0 0 2] := rfl
    have haddr : toInt16 addr = addr := toInt16_eq_self h1 h2
    simpa [LDXDW, JMP_IMM, MOV_IMM, EXIT, haddr]
      using compile_pred_eq_ok P _ [] _ hw hg
  · intro pred w hw hloc hty
    obtain ⟨ty, loc, rg, addr, sz, intg, w0, aop, fd, ra, kids⟩ := pred
    simp only [Node.loc, Node.ty] at hloc hty
    subst hloc
    have hg : predGate (Node.mk ty .nowhere rg addr sz intg w0 aop fd ra kids) =
        .error .badPredLoc := by
      simp [predGate, hty]
    exact compile_pred_gate_error P _ w _ hw hg

/-- Witness predicate for C3: the unresolved non-zero constant integer 1. -/
def c3pred : Node := .mk .tInt .nowhere 0 0 8 1 (fun _ => 0) .mov 0 0 []

/-- Witness for C3: the statically-true constant predicate emits the skip jump
and the exit tail. -/
theorem C3_compile_pred_witness :
    compile_pred pvdrNone (some c3pred) =
      .ok [Insn.jmpImm .ja 0 0 2, Insn.movImm 0 0, Insn.exit] :=
  (C3_compile_pred pvdrNone).2.2.1 c3pred rfl rfl rfl (by decide)

/-- C5: compile_probe appends the two-instruction zero-return-and-exit tail
after the last statement's code exactly when the last statement is not of
return kind: the full output is the context-register move, the predicate
code, the statement code, then the conditional tail. -/
theorem C5_probe_tail (P : Pvdr) (probe : Probe) (last : Node)
    (hl : probe.stmts.getLast? = some last) (p b : List Insn)
    (hp : compile_pred P probe.pred = .ok p)
    (hb : walkList P .tProbe .mov probe.stmts = .ok b) :
    compile_probe P probe =
      .ok (Insn.movReg 9 1 ::
        (p ++ b ++
          (if last.ty = .tReturn then [] else [Insn.movImm 0 0, Insn.exit]))) := by
  simp [compile_probe, hp, hb, hl, MOV, MOV_IMM, EXIT]

/-- Witness statement for C5: a single non-return integer statement. -/
def c5stmt : Node := .mk .tInt .nowhere 0 0 8 1 (fun _ => 0) .mov 0 0 []

/-- Witness probe for C5: no predicate, one non-return statement. -/
def c5probe : Probe := ⟨none, [c5stmt]⟩

/-- Witness for C5: the implicit tail is appended after a non-return last
statement. -/
theorem C5_probe_tail_witness :
    compile_probe pvdrNone c5probe =
      .ok (Insn.movReg 9 1 ::
        (([] : List Insn) ++ ([] : List Insn) ++
          (if c5stmt.ty = .tReturn then [] else [Insn.movImm 0 0, Insn.exit]))) :=
  C5_probe_tail pvdrNone c5probe c5stmt rfl [] [] rfl rfl

/-- The instruction buffer after a fold of emit is the prior buffer followed
by the emitted list, independently of the dump flag and renderer. -/
lemma emitAll_insns (dump : Bool) (render : Nat → Insn → String) (s : EmitState)
    (l : List Insn) : (emitAll dump render s l).insns = s.insns ++ l := by
  induction l generalizing s with
  | nil => simp [emitAll]
  | cons i rest ih =>
      rw [emitAll, List.foldl_cons,
        show List.foldl (emit dump render) (emit dump render s i) rest =
          emitAll dump render (emit dump render s i) rest from rfl,
        ih]
      simp [emit]

/-- C9: the encoded instruction sequence produced by emit — and by emitting an
entire compiled instruction list — is identical whether the diagnostic dump
flag is set or cleared, for every rendering function; the buffer always holds
exactly the prior contents followed by the emitted instructions. -/
theorem C9_dump_flag_no_effect (dump : Bool) (render : Nat → Insn → String)
    (s : EmitState) (i : Insn) (l : List Insn) :
    (emit dump render s i).insns = (emit false render s i).insns
    ∧ (emitAll dump render s l).insns = (emitAll false render s l).insns
    ∧ (emitAll dump render s l).insns = s.insns ++ l := by
  refine ⟨rfl, ?_, emitAll_insns dump render s l⟩
  rw [emitAll_insns, emitAll_insns]

/-- C2: emit_map_load emits zero instructions exactly when the value node's
parent is a plain-overwrite (move-operator) assignment; in every other case
it emits the zero-fill of the node's stack area, the map-handle load into
argument register 1, the key address (frame pointer plus key-record offset)
into argument register 2, the lookup-helper call, a jump-if-equal-zero branch
on return register 0 whose offset 5 skips exactly the five-instruction copy
sequence, and that copy sequence invoking the safe-memory-copy helper with
the node's frame address in register 1, exactly the node's declared size in
register 2, and the helper's returned pointer in register 3 (field values in
range of their instruction fields). -/
theorem C2_map_load (pTy : NType) (pOp : AluOp) (n : Node)
    (ha1 : -2147483648 ≤ n.addr) (ha2 : n.addr < 2147483648)
    (hr1 : -2147483648 ≤ n.recAddr) (hr2 : n.recAddr < 2147483648)
    (hsz : n.size < 2147483648) :
    (emit_map_load pTy pOp n = [] ↔ (pTy = .tAssign ∧ pOp = .mov))
    ∧ (¬(pTy = .tAssign ∧ pOp = .mov) →
        emit_map_load pTy pOp n =
          emit_stack_zero n ++
          [Insn.ldMapFd 1 n.mapfd,
           Insn.movReg 2 10,
           Insn.aluImm .add 2 n.recAddr,
           Insn.call .map_lookup_elem,
           Insn.jmpImm .jeq 0 0 5] ++
          [Insn.movReg 1 10,
           Insn.aluImm .add 1 n.addr,
           Insn.movImm 2 (n.size : Int),
           Insn.movReg 3 0,
           Insn.call .probe_read]
        ∧ (Insn.jmpImm .jeq 0 0 5).off =
            ([Insn.movReg 1 10, Insn.aluImm .add 1 n.addr,
              Insn.movImm 2 (n.size : Int), Insn.movReg 3 0,
              Insn.call .probe_read] : List Insn).length) := by
  have hadd : toInt32 n.addr = n.addr := toInt32_eq_self ha1 ha2
  have hrec : toInt32 n.recAddr = n.recAddr := toInt32_eq_self hr1 hr2
  have hszi : toInt32 (n.size : Int) = (n.size : Int) :=
    toInt32_eq_self (by omega) (by omega)
  by_cases h : pTy = .tAssign ∧ pOp = .mov
  · refine ⟨⟨fun _ => h, fun _ => by simp [emit_map_load, h]⟩, fun hc => absurd h hc⟩
  · refine ⟨⟨fun he => ?_, fun hc => absurd hc h⟩, fun _ => ⟨?_, by simp [Insn.off]⟩⟩
    · rw [emit_map_load, if_neg h] at he
      simp [emit_stack_zero] at he
    · rw [emit_map_load, if_neg h]
      simp only [emit_ld_mapfd, MOV, ALU_IMM, CALL, JMP_IMM, MOV_IMM,
        toInt32_zero, toInt16_five, hadd, hrec, hszi]
      simp

/-- Witness node for C2: a stack-resident 8-byte map value at frame offset
-32, key record at offset -40, map fd 9. -/
def c2node : Node := .mk .tMap .stack 0 (-32) 8 0 (fun _ => 0) .mov 9 (-40) []

/-- Witness for C2 at a concrete map node whose parent is not a
plain-overwrite assignment (parent kind: probe). -/
theorem C2_map_load_witness :
    (emit_map_load .tProbe .mov c2node = [] ↔
      ((NType.tProbe = .tAssign) ∧ (AluOp.mov = .mov)))
    ∧ (¬((NType.tProbe = .tAssign) ∧ (AluOp.mov = .mov)) →
        emit_map_load .tProbe .mov c2node =
          emit_stack_zero c2node ++
          [Insn.ldMapFd 1 c2node.mapfd,
           Insn.movReg 2 10,
           Insn.aluImm .add 2 c2node.recAddr,
           Insn.call .map_lookup_elem,
           Insn.jmpImm .jeq 0 0 5] ++
          [Insn.movReg 1 10,
           Insn.aluImm .add 1 c2node.addr,
           Insn.movImm 2 (c2node.size : Int),
           Insn.movReg 3 0,
           Insn.call .probe_read]
        ∧ (Insn.jmpImm .jeq 0 0 5).off =
            ([Insn.movReg 1 10, Insn.aluImm .add 1 c2node.addr,
              Insn.movImm 2 (c2node.size : Int), Insn.movReg 3 0,
              Insn.call .probe_read] : List Insn).length) :=
  C2_map_load .tProbe .mov c2node (by decide) (by decide) (by decide) (by decide)
    (by decide)

/-- Witness destination for C8: a stack-resident 8-byte slot at frame offset
-16. -/
def c8dst : Node := .mk .tMap .stack 0 (-16) 8 0 (fun _ => 0) .mov 0 0 []

/-- Witness source for C8: the integer literal 5, of transfer size 8. -/
def c8src : Node := .mk .tInt .nowhere 0 0 8 5 (fun _ => 0) .mov 0 0 []

/-- Witness for C8 at a concrete integer literal stored to the stack. -/
theorem C8_xfer_literal_stack_witness :
    emit_xfer c8dst c8src =
      .ok ((List.range (literalSize c8src / 4)).map
        (fun (k : Nat) =>
          Insn.stwImm 10 (c8dst.addr + 4 * (k : Int))
            (toInt32 (literalWords c8src k))))
    ∧ ((List.range (literalSize c8src / 4)).map
        (fun (k : Nat) =>
          Insn.stwImm 10 (c8dst.addr + 4 * (k : Int))
            (toInt32 (literalWords c8src k)))).length = literalSize c8src / 4
    ∧ (((List.range (literalSize c8src / 4)).map
        (fun (k : Nat) =>
          Insn.stwImm 10 (c8dst.addr + 4 * (k : Int))
            (toInt32 (literalWords c8src k)))).map Insn.off).Pairwise (· < ·)
    ∧ (0 < literalSize c8src →
        (((List.range (literalSize c8src / 4)).map
          (fun (k : Nat) =>
            Insn.stwImm 10 (c8dst.addr + 4 * (k : Int))
              (toInt32 (literalWords c8src k)))).map Insn.off).head? =
          some c8dst.addr) :=
  C8_xfer_literal_stack c8dst c8src rfl (Or.inl rfl) (by decide) (by decide)
    (by decide)

end Ply
